import Mathlib

/-!
Verification of the RAG core of a chat-with-knowledge-base application.

The development shallowly embeds the pipeline modules that the checked
claims are about:

* `modules/vector-store/index.ts` — the Qdrant adapter (`storeVectors`,
  `searchSimilar`, `deleteDocumentsByFilename` with its 1000-point scroll);
* `modules/rag/llamaindex-rag.ts` — the LlamaIndex RAG manager
  (`indexDocumentsFromDirectory`, `retrieveContext`, `generateResponse`,
  `deleteDocumentsByFilename`);
* `modules/llm/index.ts` — `ChatService.prepareMessagesWithContext`, and the
  alternate RAG manager variant whose generation path builds an explicit
  system prompt.

External collaborators (the Qdrant HTTP service, the embedding model, the
language model, Prisma) are modelled by explicit state passing plus oracles:
similarity scoring is an arbitrary integer-valued function supplied to the
retrieval definitions, and each network call that can fail takes an
`Option String` carrying the error it would raise (`none` = the call
succeeds).  JavaScript code that throws across the module boundary is
modelled by the `Outcome` type below; code that catches and returns a
discriminated result returns that result directly.  Vector components are
modelled as integers: no claim depends on their numeric values, only on
dimensions and on the relative order of similarity scores.
-/

namespace ChatKB

/-- A metadata payload: a finite map from string keys to string values,
modelled as an association list where the first binding for a key wins
(prepending a binding therefore models a JavaScript object-spread
override). -/
abbrev Payload := List (String × String)

/-- Payload lookup, first binding wins. -/
def lookupKey (p : Payload) (k : String) : Option String :=
  List.lookup k p

/-- The result of a call that either returns a value or throws: `thrown`
models a JavaScript exception propagating out of the function, `ret` a value
returned to the caller. -/
inductive Outcome (α : Type) where
  | ret (value : α)
  | thrown (msg : String)
deriving Repr, DecidableEq

/-! ## Vector Store Adapter (`modules/vector-store/index.ts`) -/

/-- The input to `storeVectors`: interface `DocumentVector` of
`modules/vector-store/index.ts` (`embedding?: number[]` is optional). -/
structure DocumentVector where
  id : String
  content : String
  metadata : Payload
  embedding : Option (List Int)
deriving Repr, DecidableEq

/-- One stored Qdrant point as `storeVectors` builds it:
`{ id: randomUUID(), vector: doc.embedding || [], payload: { originalId:
doc.id, content: doc.content, ...doc.metadata } }`. -/
structure QPoint where
  id : String
  vector : List Int
  originalId : String
  content : String
  meta : Payload
deriving Repr, DecidableEq

/-- The payload object of a stored point, as Qdrant sees it: the spread
`{ originalId, content, ...doc.metadata }` lets a metadata key override the
two fixed keys, so the metadata bindings come first in the association
list. -/
def payloadOf (p : QPoint) : Payload :=
  p.meta ++ [("originalId", p.originalId), ("content", p.content)]

/-- The collection dimension configured in `createCollection`
(`size: 1536`). -/
def collectionDimension : Nat := 1536

/-- Fresh point identifiers: `randomUUID()` modelled as a counter-indexed
name (all that matters is that an identifier is a non-empty string). -/
def mkUUID (n : Nat) : String :=
  "uuid-" ++ toString n

/-- The point `storeVectors` builds for one document: the fresh UUID, the
vector `doc.embedding || []`, and the payload fields. -/
def pointOf (n : Nat) (d : DocumentVector) : QPoint :=
  { id := mkUUID n
    vector := d.embedding.getD []
    originalId := d.id
    content := d.content
    meta := d.metadata }

/-- The point list `documents.map(...)` of `storeVectors`, with the UUID
counter threaded left to right. -/
def toPoints (nextId : Nat) : List DocumentVector → List QPoint
  | [] => []
  | doc :: docs => pointOf nextId doc :: toPoints (nextId + 1) docs

/-- The validation predicate of `storeVectors`: `!point.vector ||
point.vector.length === 0 || point.vector.length !== 1536 || !point.id ||
typeof point.id !== "string"`.  The vector is always an array (it is
`doc.embedding || []`) and the identifier is always a string, so the live
conditions are the empty vector, the dimension mismatch and an empty (falsy)
identifier string. -/
def invalidPoint (p : QPoint) : Bool :=
  p.vector.isEmpty || p.vector.length != collectionDimension || p.id == ""

/-- `VectorStoreManager.storeVectors`: build the points, reject the whole
batch when any point is invalid (the throw happens before the upsert, so the
store is returned unchanged), otherwise upsert the whole batch. -/
def storeVectors (store : List QPoint) (nextId : Nat) (docs : List DocumentVector) :
    Except String Unit × List QPoint :=
  let points := toPoints nextId docs
  let invalidPoints := points.filter invalidPoint
  if 0 < invalidPoints.length then
    (Except.error ("Cannot store vectors: " ++ toString invalidPoints.length ++
      " vectors have invalid dimensions or missing data"), store)
  else
    (Except.ok (), store ++ points)

/-- A `searchSimilar` hit as returned to the caller. -/
structure SearchResult where
  id : String
  content : String
  meta : Payload
  score : Int
deriving Repr, DecidableEq

/-- A Qdrant `must` filter: every key-value pair must match the payload. -/
def matchesMust (filt : Payload) (p : QPoint) : Bool :=
  filt.all (fun kv => decide (lookupKey (payloadOf p) kv.1 = some kv.2))

/-- `VectorStoreManager.searchSimilar`: a thrown client error is wrapped and
re-thrown; otherwise the Qdrant search keeps the points matching the filter
whose score reaches `scoreThreshold`, ranked by descending score, truncated
to `queryLimit`.  The result id is `payload.originalId || id`. -/
def vsSearchSimilar (store : List QPoint) (sim : QPoint → Int) (clientFail : Option String)
    (queryLimit : Nat) (scoreThreshold : Int) (filt : Payload) : Outcome (List SearchResult) :=
  match clientFail with
  | some e => Outcome.thrown ("Vector search failed: " ++ e)
  | none =>
    let hits := (((store.filter (matchesMust filt)).filter
      (fun p => scoreThreshold ≤ sim p)).mergeSort (fun a b => sim b ≤ sim a)).take queryLimit
    Outcome.ret (hits.map (fun p =>
      { id := match lookupKey (payloadOf p) "originalId" with
          | some s => if s = "" then p.id else s
          | none => p.id
        content := (lookupKey (payloadOf p) "content").getD ""
        meta := payloadOf p
        score := sim p }))

/-- The scroll page size hard-coded in `deleteDocumentsByFilename`
(`limit: 1000`). -/
def scrollLimit : Nat := 1000

/-- Whether a stored point belongs to `filename`, as the scroll filter of
`VectorStoreManager.deleteDocumentsByFilename` tests it (payload key
`filename`). -/
def vsFilenameMatch (filename : String) (p : QPoint) : Bool :=
  decide (lookupKey (payloadOf p) "filename" = some filename)

/-- `VectorStoreManager.deleteDocumentsByFilename`: one scroll request with
`limit: 1000` collects matching point ids; if none match the call returns 0;
otherwise exactly the collected ids are deleted and their number returned.
A thrown client error is wrapped and re-thrown. -/
def vsDeleteDocumentsByFilename (store : List QPoint) (clientFail : Option String)
    (filename : String) : Outcome (Nat × List QPoint) :=
  match clientFail with
  | some e => Outcome.thrown ("Document deletion by filename failed: " ++ e)
  | none =>
    let scrolled := (store.filter (vsFilenameMatch filename)).take scrollLimit
    if scrolled.length = 0 then Outcome.ret (0, store)
    else
      let pointIds := scrolled.map (fun p => p.id)
      Outcome.ret (pointIds.length,
        store.filter (fun p => !(decide (p.id ∈ pointIds))))

/-! ## LlamaIndex RAG Manager (`modules/rag/llamaindex-rag.ts`) -/

/-- A Prisma `Document` row as `prisma.document.create` writes it. -/
structure DocRecord where
  id : String
  threadId : String
  filename : String
  originalName : String
  size : Nat
  mimeType : String
  status : String
deriving Repr, DecidableEq

/-- A LlamaIndex node persisted in the Qdrant collection: its text content
and its metadata payload (`threadId`, `doc_id`, `fileName`, `uploadedAt`,
plus whatever the reader attached). -/
structure VecNode where
  content : String
  meta : Payload
deriving Repr, DecidableEq

/-- The two durable stores the RAG manager writes: the Qdrant collection of
nodes and the MySQL `Document` table. -/
structure RagStore where
  points : List VecNode
  docRows : List DocRecord
deriving Repr, DecidableEq

/-- A document as `SimpleDirectoryReader.loadData` yields it. -/
structure RawDoc where
  text : String
  meta : Payload
deriving Repr, DecidableEq

/-- One entry of the `fileMetadata` argument of
`indexDocumentsFromDirectory`. -/
structure FileMeta where
  name : String
  size : Option Nat
  mimeType : Option String
deriving Repr, DecidableEq

/-- One entry of `updatedFileMetadata`: the input metadata extended with a
generated `docId` and the filename fallback
`fileMeta.name || "document_" + index`. -/
structure UpdatedMeta where
  name : String
  size : Option Nat
  mimeType : Option String
  docId : String
  filename : String
deriving Repr, DecidableEq

/-- Generated cuid2 identifiers, modelled as a counter-indexed name. -/
def createId (n : Nat) : String :=
  "cid-" ++ toString n

/-- The `fileMetadata.map((fileMeta, index) => ...)` step building
`updatedFileMetadata`, with the id counter starting at `seed`. -/
def updateFileMetadata (seed : Nat) : Nat → List FileMeta → List UpdatedMeta
  | _, [] => []
  | index, fm :: rest =>
    { name := fm.name
      size := fm.size
      mimeType := fm.mimeType
      docId := createId (seed + index)
      filename := if fm.name = "" then "document_" ++ toString index else fm.name } ::
    updateFileMetadata seed (index + 1) rest

/-- The metadata tagging of one loaded document (`doc.metadata = {
...doc.metadata, threadId, doc_id: docId, fileName: filename, uploadedAt }`):
the four pipeline keys are prepended so they shadow any reader-supplied
binding of the same key. -/
def tagOne (threadId now : String) (doc : RawDoc) (fm : UpdatedMeta) : VecNode :=
  { content := doc.text
    meta := ("threadId", threadId) :: ("doc_id", fm.docId) :: ("fileName", fm.filename) ::
      ("uploadedAt", now) :: doc.meta }

/-- Tag every loaded document with the pipeline metadata, pairing document
`index` with `updatedFileMetadata[index]`. -/
def tagDocuments (threadId now : String) (docs : List RawDoc) (updated : List UpdatedMeta) :
    List VecNode :=
  List.zipWith (tagOne threadId now) docs updated

/-- The `Document` row created for one input file after the vector upsert:
`status: "READY"`, with the JavaScript fallbacks `size || 0` and
`mimeType || "application/octet-stream"`. -/
def mkDocRecord (threadId : String) (fm : UpdatedMeta) : DocRecord :=
  { id := fm.docId
    threadId := threadId
    filename := fm.filename
    originalName := fm.name
    size := fm.size.getD 0
    mimeType := fm.mimeType.getD "application/octet-stream"
    status := "READY" }

/-- The result record of `indexDocumentsFromDirectory`. -/
structure IndexingResult where
  success : Bool
  documentsIndexed : Nat
  chunksCreated : Nat
  error : Option String
deriving Repr, DecidableEq

/-- `LlamaIndexRAGManager.indexDocumentsFromDirectory`.  `loadRes` is the
outcome of `SimpleDirectoryReader.loadData` (an error is caught and turned
into a failure result); `upsertOk` is whether `VectorStoreIndex.fromDocuments`
durably stores the embedded nodes (a throw there is caught and turned into a
failure result, with nothing written).  Document rows are created only on
the path where the vector upsert has already succeeded; each one is created
directly with `status: "READY"`.  When there are more loaded documents than
`fileMetadata` entries, the destructuring of `updatedFileMetadata[index]`
throws, which the surrounding catch turns into a failure result. -/
def indexDocumentsFromDirectory (st : RagStore) (loadRes : Except String (List RawDoc))
    (threadId : String) (fileMetadata : List FileMeta) (now : String) (seed : Nat)
    (upsertOk : Bool) : IndexingResult × RagStore :=
  match loadRes with
  | Except.error e =>
    ({ success := false, documentsIndexed := 0, chunksCreated := 0, error := some e }, st)
  | Except.ok documents =>
    if documents.length = 0 then
      ({ success := false, documentsIndexed := 0, chunksCreated := 0,
         error := some "No documents were loaded from the directory" }, st)
    else if fileMetadata.length < documents.length then
      ({ success := false, documentsIndexed := 0, chunksCreated := 0,
         error := some "Cannot destructure property of undefined" }, st)
    else
      let updated := updateFileMetadata seed 0 fileMetadata
      let tagged := tagDocuments threadId now documents updated
      if upsertOk then
        let newRows := updated.map (mkDocRecord threadId)
        ({ success := true, documentsIndexed := fileMetadata.length,
           chunksCreated := documents.length, error := none },
         { points := st.points ++ tagged, docRows := st.docRows ++ newRows })
      else
        ({ success := false, documentsIndexed := 0, chunksCreated := 0,
           error := some "Vector store upsert failed" }, st)

/-- The thread tag of a stored node, as the retrieval filter reads it. -/
def nodeThreadId (p : VecNode) : Option String :=
  lookupKey p.meta "threadId"

/-- Whether a node passes the query engine's pre-filter
`{ key: "threadId", value: threadId, operator: "==" }`. -/
def threadFilter (threadId : String) (p : VecNode) : Bool :=
  decide (nodeThreadId p = some threadId)

/-- The `similarityTopK` of both query engines (`similarityTopK: 5`). -/
def similarityTopK : Nat := 5

/-- The node selection of the query engine over a candidate list: keep the
candidates whose similarity reaches the engine's score threshold, rank by
descending similarity, truncate to `similarityTopK`.  `sim` is the
composition of query embedding and vector-store scoring, an external
oracle. -/
def engineSelect (sim : VecNode → Int) (thr : Int) (cands : List VecNode) : List VecNode :=
  ((cands.filter (fun p => thr ≤ sim p)).mergeSort (fun a b => sim b ≤ sim a)).take
    similarityTopK

/-- The source nodes a thread-filtered query returns: the engine's selection
over exactly the points whose `threadId` metadata equals the requested
thread. -/
def retrieveNodes (points : List VecNode) (sim : VecNode → Int) (thr : Int)
    (threadId : String) : List VecNode :=
  engineSelect sim thr (points.filter (threadFilter threadId))

/-- One entry of the `sources` array of a retrieval result. -/
structure SourceEntry where
  fileName : String
  similarity : Int
deriving Repr, DecidableEq

/-- The result record of `retrieveContext`. -/
structure RetrievalResult where
  contextText : String
  sources : List SourceEntry
deriving Repr, DecidableEq

/-- The result record of `generateResponse`. -/
structure GenerateResult where
  response : String
  context : RetrievalResult
deriving Repr, DecidableEq

/-- The context text built from the source nodes:
`sourceNodes.map((node, index) => "[" + (index+1) + "] " + content).join("\n\n")`. -/
def formatContext (nodes : List VecNode) : String :=
  String.intercalate "\n\n" (nodes.enum.map (fun ia =>
    "[" ++ toString (ia.1 + 1) ++ "] " ++ ia.2.content))

/-- The `sources` array built from the source nodes: the `fileName` metadata
with fallback `"Unknown"`, and the node's score. -/
def nodeSources (sim : VecNode → Int) (nodes : List VecNode) : List SourceEntry :=
  nodes.map (fun p =>
    { fileName := (lookupKey p.meta "fileName").getD "Unknown", similarity := sim p })

/-- `LlamaIndexRAGManager.retrieveContext`: a failing engine call is caught
and re-thrown wrapped as `Context retrieval failed: ...`; otherwise the
filtered query's source nodes are formatted into the retrieval result
(`response.sourceNodes || []` makes the empty hit list a normal result). -/
def retrieveContext (st : RagStore) (sim : VecNode → Int) (thr : Int)
    (queryFail : Option String) (threadId : String) : Outcome RetrievalResult :=
  match queryFail with
  | some e => Outcome.thrown ("Context retrieval failed: " ++ e)
  | none =>
    let nodes := retrieveNodes st.points sim thr threadId
    Outcome.ret { contextText := formatContext nodes, sources := nodeSources sim nodes }

/-- `LlamaIndexRAGManager.generateResponse`: the same filtered query engine,
whose synthesized answer is the external oracle `llm` applied to the
retrieved nodes; a failure is caught and re-thrown wrapped as
`RAG generation failed: ...`. -/
def generateResponse (st : RagStore) (sim : VecNode → Int) (thr : Int)
    (queryFail : Option String) (llm : List VecNode → String) (threadId : String) :
    Outcome GenerateResult :=
  match queryFail with
  | some e => Outcome.thrown ("RAG generation failed: " ++ e)
  | none =>
    let nodes := retrieveNodes st.points sim thr threadId
    Outcome.ret
      { response := llm nodes
        context := { contextText := formatContext nodes, sources := nodeSources sim nodes } }

/-- The result record of the RAG manager's `deleteDocumentsByFilename`. -/
structure DeleteResult where
  success : Bool
  deletedCount : Nat
  message : String
deriving Repr, DecidableEq

/-- Whether a `Document` row matches the Prisma `where { filename, threadId }`
clause. -/
def rowMatch (filename threadId : String) (r : DocRecord) : Bool :=
  decide (r.filename = filename) && decide (r.threadId = threadId)

/-- Whether a stored node matches the Qdrant delete filter
`must [{ key: "fileName", match: filename }, { key: "threadId", match:
threadId }]`. -/
def pointMatch (filename threadId : String) (p : VecNode) : Bool :=
  decide (lookupKey p.meta "fileName" = some filename) &&
    decide (nodeThreadId p = some threadId)

/-- `LlamaIndexRAGManager.deleteDocumentsByFilename`.  `dbFail` is a Prisma
error (caught by the outer catch, which returns a failure result and leaves
both stores untouched); `vectorDeleteOk` is whether the Qdrant delete call
succeeds — its failure is caught by the inner catch, merely logged, and the
MySQL deletion proceeds regardless.  When no `Document` row matches, the
call returns `deletedCount: 0` with `success: true` and touches nothing. -/
def ragDeleteDocumentsByFilename (st : RagStore) (dbFail : Option String)
    (vectorDeleteOk : Bool) (filename threadId : String) : DeleteResult × RagStore :=
  match dbFail with
  | some e =>
    ({ success := false, deletedCount := 0,
       message := "Failed to delete documents: " ++ e }, st)
  | none =>
    let documents := st.docRows.filter (rowMatch filename threadId)
    if documents.length = 0 then
      ({ success := true, deletedCount := 0,
         message := "No documents found for filename: " ++ filename ++
           " in thread: " ++ threadId }, st)
    else
      let points := if vectorDeleteOk then
          st.points.filter (fun p => !(pointMatch filename threadId p))
        else st.points
      let remaining := st.docRows.filter (fun r => !(rowMatch filename threadId r))
      let deletedCount := documents.length
      ({ success := true, deletedCount := deletedCount,
         message := "Successfully deleted " ++ toString deletedCount ++
           " documents for file: " ++ filename ++
           " from both database and vector store" },
       { points := points, docRows := remaining })

/-! ## Chat service prompt assembly (`modules/llm/index.ts`) and the
alternate RAG manager's generation prompt -/

/-- A chat message as sent to the completion endpoint. -/
structure ChatMsg where
  role : String
  content : String
deriving Repr, DecidableEq

/-- A `ContextChunk` as declared in the shared types module. -/
structure ContextChunk where
  id : String
  content : String
  source : String
  relevanceScore : Int
deriving Repr, DecidableEq

/-- The context block `ChatService.prepareMessagesWithContext` formats:
`[Source ${index+1}] ${chunk.source}:\n${chunk.content}` joined by blank
lines. -/
def chatContextText (context : List ContextChunk) : String :=
  String.intercalate "\n\n" (context.enum.map (fun ic =>
    "[Source " ++ toString (ic.1 + 1) ++ "] " ++ ic.2.source ++ ":\n" ++ ic.2.content))

/-- The system prompt `ChatService.prepareMessagesWithContext` injects when
the context is non-empty, verbatim from the source. -/
def knowledgeBasePrompt (contextText : String) : String :=
  "You are a helpful assistant with access to a knowledge base. Use the following context to help answer questions when relevant:\n\n" ++
    contextText ++
    "\n\nIf the context doesn't contain relevant information for the user's question, you can still provide a helpful response based on your general knowledge."

/-- `ChatService.prepareMessagesWithContext`: with no context (`!context ||
context.length === 0`) the messages pass through unchanged — no system
message at all; otherwise the knowledge-base system message is prepended. -/
def prepareMessagesWithContext (messages : List ChatMsg)
    (context : Option (List ContextChunk)) : List ChatMsg :=
  match context with
  | none => messages
  | some ctx =>
    if ctx.isEmpty then messages
    else { role := "system", content := knowledgeBasePrompt (chatContextText ctx) } :: messages

/-- The system prompt of the alternate RAG manager's `generateResponse`
(the variant that calls `LLMGateway.chatCompletion` itself), verbatim from
the source: the retrieved context is appended after a fixed instruction
prefix. -/
def ragSystemPrompt (contextText : String) : String :=
  "You are a helpful assistant that answers questions based on the provided context. Use the context below to answer the user's question. If the context doesn't contain relevant information, say so clearly.\n\nContext:\n" ++
    contextText

/-- The message list that variant sends to the completion endpoint: the
system prompt (always present, whatever the context) and the user query. -/
def ragMessages (contextText query : String) : List ChatMsg :=
  [{ role := "system", content := ragSystemPrompt contextText },
   { role := "user", content := query }]

/-! ## Helper lemmas -/

/-- `updatedFileMetadata` has one entry per `fileMetadata` entry. -/
theorem updateFileMetadata_length (seed : Nat) :
    ∀ (index : Nat) (fms : List FileMeta),
      (updateFileMetadata seed index fms).length = fms.length := by
  intro index fms
  induction fms generalizing index with
  | nil => rfl
  | cons fm rest ih => simp [updateFileMetadata, ih]

/-- Every stage failing at or before the vector upsert yields a failure
result and leaves both stores untouched. -/
theorem indexDocuments_upsert_fail (st : RagStore) (loadRes : Except String (List RawDoc))
    (threadId : String) (fileMetadata : List FileMeta) (now : String) (seed : Nat) :
    (indexDocumentsFromDirectory st loadRes threadId fileMetadata now seed false).1.success =
      false ∧
    (indexDocumentsFromDirectory st loadRes threadId fileMetadata now seed false).2 = st := by
  cases loadRes with
  | error e => simp [indexDocumentsFromDirectory]
  | ok documents =>
    by_cases h0 : documents.length = 0
    · simp [indexDocumentsFromDirectory, h0]
    · by_cases h1 : fileMetadata.length < documents.length
      · simp [indexDocumentsFromDirectory, h0, h1]
      · simp [indexDocumentsFromDirectory, h0, h1]

/-- The point that `toPoints` builds for an input document of the batch is in
the built list. -/
theorem toPoints_mem (d : DocumentVector) :
    ∀ (docs : List DocumentVector) (nextId : Nat), d ∈ docs →
      ∃ n, pointOf n d ∈ toPoints nextId docs := by
  intro docs
  induction docs with
  | nil =>
    intro nextId hd
    cases hd
  | cons a as ih =>
    intro nextId hd
    rcases List.mem_cons.mp hd with h | h
    · subst h
      exact ⟨nextId, List.mem_cons_self _ _⟩
    · obtain ⟨n, hn⟩ := ih (nextId + 1) h
      exact ⟨n, List.mem_cons_of_mem _ hn⟩

/-! ## The claims -/

/-- C1: in `indexDocumentsFromDirectory`, a metadata `Document` record (with
status `READY`) is created only on the path where the vector upsert has
succeeded and new vector records were appended; whenever a stage up to and
including the vector upsert fails, the call returns a failure result and
writes nothing to either store. -/
theorem indexing_writes_metadata_only_after_upsert (st : RagStore)
    (loadRes : Except String (List RawDoc)) (threadId : String)
    (fileMetadata : List FileMeta) (now : String) (seed : Nat) :
    ((indexDocumentsFromDirectory st loadRes threadId fileMetadata now seed false).1.success =
        false ∧
      (indexDocumentsFromDirectory st loadRes threadId fileMetadata now seed false).2 = st) ∧
    (∀ upsertOk : Bool, ∀ d : DocRecord,
      d ∈ (indexDocumentsFromDirectory st loadRes threadId fileMetadata now seed
            upsertOk).2.docRows →
      d ∉ st.docRows →
      upsertOk = true ∧ d.status = "READY" ∧
      (indexDocumentsFromDirectory st loadRes threadId fileMetadata now seed
        upsertOk).1.success = true ∧
      ∃ newPoints, newPoints ≠ [] ∧
        (indexDocumentsFromDirectory st loadRes threadId fileMetadata now seed
          upsertOk).2.points = st.points ++ newPoints) := by
  refine ⟨indexDocuments_upsert_fail st loadRes threadId fileMetadata now seed, ?_⟩
  intro upsertOk d hmem hnot
  cases loadRes with
  | error e =>
    simp [indexDocumentsFromDirectory] at hmem
    exact absurd hmem hnot
  | ok documents =>
    by_cases h0 : documents.length = 0
    · simp [indexDocumentsFromDirectory, h0] at hmem
      exact absurd hmem hnot
    · by_cases h1 : fileMetadata.length < documents.length
      · simp [indexDocumentsFromDirectory, h0, h1] at hmem
        exact absurd hmem hnot
      · cases upsertOk with
        | false =>
          simp [indexDocumentsFromDirectory, h0, h1] at hmem
          exact absurd hmem hnot
        | true =>
          refine ⟨rfl, ?_, ?_, ?_⟩
          · simp [indexDocumentsFromDirectory, h0, h1] at hmem
            rcases hmem with h | h
            · exact absurd h hnot
            · obtain ⟨fm, _, rfl⟩ := h
              rfl
          · simp [indexDocumentsFromDirectory, h0, h1]
          · refine ⟨tagDocuments threadId now documents (updateFileMetadata seed 0 fileMetadata),
              ?_, ?_⟩
            · have hlen : (tagDocuments threadId now documents
                  (updateFileMetadata seed 0 fileMetadata)).length = documents.length := by
                simp [tagDocuments, List.length_zipWith, updateFileMetadata_length]
                omega
              intro hnil
              rw [hnil] at hlen
              exact h0 hlen.symm
            · simp [indexDocumentsFromDirectory, h0, h1]

/-- C2: when any record of a `storeVectors` batch has a missing embedding, an
empty embedding, or an embedding whose length differs from the configured
collection dimension 1536, the whole call fails with an error and the store
is unchanged. -/
theorem storeVectors_rejects_invalid_batch (store : List QPoint) (nextId : Nat)
    (docs : List DocumentVector) (d : DocumentVector) (hd : d ∈ docs)
    (hbad : d.embedding = none ∨ d.embedding = some [] ∨
      ∃ v, d.embedding = some v ∧ v.length ≠ collectionDimension) :
    (∃ e, (storeVectors store nextId docs).1 = Except.error e) ∧
    (storeVectors store nextId docs).2 = store := by
  have hlen : (d.embedding.getD []).length ≠ collectionDimension := by
    rcases hbad with h | h | ⟨v, hv, hvl⟩
    · simp [h, collectionDimension]
    · simp [h, collectionDimension]
    · simpa [hv] using hvl
  obtain ⟨n, hn⟩ := toPoints_mem d docs nextId hd
  have hinv : invalidPoint (pointOf n d) = true := by
    simp [invalidPoint, pointOf, bne_iff_ne]
    exact Or.inl (Or.inr hlen)
  have hpos : 0 < ((toPoints nextId docs).filter invalidPoint).length := by
    have hmem : pointOf n d ∈ (toPoints nextId docs).filter invalidPoint :=
      List.mem_filter.mpr ⟨hn, hinv⟩
    exact List.length_pos.mpr (List.ne_nil_of_mem hmem)
  constructor
  · exact ⟨"Cannot store vectors: " ++
      toString ((toPoints nextId docs).filter invalidPoint).length ++
      " vectors have invalid dimensions or missing data", by simp [storeVectors, hpos]⟩
  · simp [storeVectors, hpos]

/-- C2 witness: a concrete batch holding one three-dimensional vector is
rejected and the store left unchanged. -/
theorem storeVectors_rejects_invalid_batch_witness :
    (∃ e, (storeVectors []
      0 [{ id := "d1", content := "hello", metadata := [], embedding := some [1, 2, 3] }]).1 =
        Except.error e) ∧
    (storeVectors []
      0 [{ id := "d1", content := "hello", metadata := [], embedding := some [1, 2, 3] }]).2 =
      [] :=
  storeVectors_rejects_invalid_batch [] 0 _ _ (List.mem_cons_self _ _)
    (Or.inr (Or.inr ⟨[1, 2, 3], rfl, by decide⟩))

/-- Membership in the engine's selection implies membership in the
candidate list. -/
theorem engineSelect_subset (sim : VecNode → Int) (thr : Int) (cands : List VecNode)
    (p : VecNode) (hp : p ∈ engineSelect sim thr cands) : p ∈ cands := by
  have h1 : p ∈ (cands.filter (fun q => thr ≤ sim q)).mergeSort
      (fun a b => sim b ≤ sim a) := List.take_subset _ _ hp
  have h2 : p ∈ cands.filter (fun q => thr ≤ sim q) := List.mem_mergeSort.mp h1
  exact (List.mem_filter.mp h2).1

/-- C3: every node the thread-filtered query returns carries `threadId = A`
in its metadata, so no node of a distinct thread `B` is ever part of the
retrieval result or of the grounding context either `retrieveContext` or
`generateResponse` builds from those nodes. -/
theorem retrieval_thread_isolation (st : RagStore) (sim : VecNode → Int) (thr : Int)
    (llm : List VecNode → String) (A : String) :
    (∀ p ∈ retrieveNodes st.points sim thr A, nodeThreadId p = some A) ∧
    (∀ B : String, B ≠ A → ∀ p ∈ retrieveNodes st.points sim thr A,
      nodeThreadId p ≠ some B) ∧
    retrieveContext st sim thr none A =
      Outcome.ret
        { contextText := formatContext (retrieveNodes st.points sim thr A)
          sources := nodeSources sim (retrieveNodes st.points sim thr A) } ∧
    generateResponse st sim thr none llm A =
      Outcome.ret
        { response := llm (retrieveNodes st.points sim thr A)
          context :=
            { contextText := formatContext (retrieveNodes st.points sim thr A)
              sources := nodeSources sim (retrieveNodes st.points sim thr A) } } := by
  have key : ∀ p ∈ retrieveNodes st.points sim thr A, nodeThreadId p = some A := by
    intro p hp
    have h1 : p ∈ st.points.filter (threadFilter A) := engineSelect_subset _ _ _ _ hp
    have h2 : threadFilter A p = true := (List.mem_filter.mp h1).2
    exact of_decide_eq_true h2
  refine ⟨key, ?_, rfl, rfl⟩
  intro B hBA p hp hB
  have hA := key p hp
  rw [hA] at hB
  exact hBA (Option.some.inj hB.symm) |>.elim

/-- C3 witness: with one node in thread `t1` and one in thread `t2`
ingested, retrieval for `t1` returns only the `t1` node, which carries
`threadId = t1`; the `t2` node is excluded. -/
theorem retrieval_thread_isolation_witness :
    (∀ p ∈ retrieveNodes
      [{ content := "alpha", meta := [("threadId", "t1"), ("fileName", "a.txt")] },
       { content := "beta", meta := [("threadId", "t2"), ("fileName", "b.txt")] }]
      (fun _ => 1) 0 "t1", nodeThreadId p = some "t1") :=
  (retrieval_thread_isolation
    { points :=
        [{ content := "alpha", meta := [("threadId", "t1"), ("fileName", "a.txt")] },
         { content := "beta", meta := [("threadId", "t2"), ("fileName", "b.txt")] }]
      docRows := [] }
    (fun _ => 1) 0 (fun _ => "") "t1").1

/-- Evaluation of the RAG manager's delete when no `Document` row matches. -/
theorem ragDelete_no_match (st : RagStore) (vok : Bool) (filename threadId : String)
    (h : st.docRows.filter (rowMatch filename threadId) = []) :
    ragDeleteDocumentsByFilename st none vok filename threadId =
      ({ success := true, deletedCount := 0,
         message := "No documents found for filename: " ++ filename ++
           " in thread: " ++ threadId }, st) := by
  simp only [ragDeleteDocumentsByFilename, h]
  simp

/-- Evaluation of the RAG manager's delete when some `Document` row
matches. -/
theorem ragDelete_match (st : RagStore) (vok : Bool) (filename threadId : String)
    (h : st.docRows.filter (rowMatch filename threadId) ≠ []) :
    ragDeleteDocumentsByFilename st none vok filename threadId =
      ({ success := true
         deletedCount := (st.docRows.filter (rowMatch filename threadId)).length
         message := "Successfully deleted " ++
           toString (st.docRows.filter (rowMatch filename threadId)).length ++
           " documents for file: " ++ filename ++
           " from both database and vector store" },
       { points := if vok then st.points.filter (fun p => !(pointMatch filename threadId p))
           else st.points
         docRows := st.docRows.filter (fun r => !(rowMatch filename threadId r)) }) := by
  have hl : ¬ (st.docRows.filter (rowMatch filename threadId)).length = 0 := by
    simpa [List.length_eq_zero] using h
  simp only [ragDeleteDocumentsByFilename]
  rw [if_neg hl]

/-- C4: `deleteDocumentsByFilename(filename, T1)` on the RAG manager removes
only vector records and `Document` rows matching both the filename and
`threadId = T1`: everything else survives, nothing is added, and retrieval
for any other thread `T2` sees an unchanged candidate set. -/
theorem delete_is_thread_scoped (st : RagStore) (filename T1 : String) (vok : Bool) :
    (∀ p ∈ st.points, pointMatch filename T1 p = false →
      p ∈ (ragDeleteDocumentsByFilename st none vok filename T1).2.points) ∧
    (∀ p ∈ (ragDeleteDocumentsByFilename st none vok filename T1).2.points,
      p ∈ st.points) ∧
    (∀ r ∈ st.docRows, rowMatch filename T1 r = false →
      r ∈ (ragDeleteDocumentsByFilename st none vok filename T1).2.docRows) ∧
    (∀ r ∈ (ragDeleteDocumentsByFilename st none vok filename T1).2.docRows,
      r ∈ st.docRows) ∧
    (∀ T2 : String, T2 ≠ T1 → ∀ (sim : VecNode → Int) (thr : Int),
      retrieveNodes (ragDeleteDocumentsByFilename st none vok filename T1).2.points
        sim thr T2 = retrieveNodes st.points sim thr T2) := by
  by_cases h0 : st.docRows.filter (rowMatch filename T1) = []
  · rw [ragDelete_no_match st vok filename T1 h0]
    exact ⟨fun p hp _ => hp, fun p hp => hp, fun r hr _ => hr, fun r hr => hr,
      fun _ _ _ _ => rfl⟩
  · rw [ragDelete_match st vok filename T1 h0]
    refine ⟨?_, ?_, ?_, ?_, ?_⟩
    · intro p hp hm
      cases vok with
      | false => simpa using hp
      | true =>
        simp only [if_pos trivial]
        exact List.mem_filter.mpr ⟨hp, by simp [hm]⟩
    · intro p hp
      cases vok with
      | false => simpa using hp
      | true =>
        simp only [if_pos trivial] at hp
        exact (List.mem_filter.mp hp).1
    · intro r hr hm
      exact List.mem_filter.mpr ⟨hr, by simp [hm]⟩
    · intro r hr
      exact (List.mem_filter.mp hr).1
    · intro T2 hT2 sim thr
      rw [retrieveNodes, retrieveNodes]
      cases vok with
      | false => simp
      | true =>
        simp only [if_pos trivial]
        congr 1
        rw [List.filter_filter]
        refine List.filter_congr ?_
        intro p _
        cases htf : threadFilter T2 p with
        | false => simp
        | true =>
          have hpt : nodeThreadId p = some T2 := of_decide_eq_true htf
          have hpm : pointMatch filename T1 p = false := by
            simp [pointMatch, hpt]
            intro _
            exact fun h => hT2 h
          simp [hpm]

/-- C4 witness: the same filename ingested in threads `t1` and `t2`; the
delete scoped to `t1` keeps the `t2` node, keeps the `t2` row, and leaves
retrieval for `t2` unchanged. -/
theorem delete_is_thread_scoped_witness :
    ({ content := "shared", meta := [("threadId", "t2"), ("fileName", "a.txt")] } : VecNode) ∈
      (ragDeleteDocumentsByFilename
        { points :=
            [{ content := "shared", meta := [("threadId", "t1"), ("fileName", "a.txt")] },
             { content := "shared", meta := [("threadId", "t2"), ("fileName", "a.txt")] }]
          docRows :=
            [{ id := "d1", threadId := "t1", filename := "a.txt", originalName := "a.txt",
               size := 6, mimeType := "text/plain", status := "READY" },
             { id := "d2", threadId := "t2", filename := "a.txt", originalName := "a.txt",
               size := 6, mimeType := "text/plain", status := "READY" }] }
        none true "a.txt" "t1").2.points :=
  (delete_is_thread_scoped
    { points :=
        [{ content := "shared", meta := [("threadId", "t1"), ("fileName", "a.txt")] },
         { content := "shared", meta := [("threadId", "t2"), ("fileName", "a.txt")] }]
      docRows :=
        [{ id := "d1", threadId := "t1", filename := "a.txt", originalName := "a.txt",
           size := 6, mimeType := "text/plain", status := "READY" },
         { id := "d2", threadId := "t2", filename := "a.txt", originalName := "a.txt",
           size := 6, mimeType := "text/plain", status := "READY" }] }
    "a.txt" "t1" true).1
    { content := "shared", meta := [("threadId", "t2"), ("fileName", "a.txt")] }
    (by simp) (by decide)

/-- C5: deleting a (filename, threadId) key with no matching `Document` rows
returns `success: true` with `deletedCount: 0` (never an error), and a
second delete for the same key right after a first one always lands in that
no-match branch. -/
theorem delete_idempotent_at_key (st : RagStore) (filename threadId : String)
    (vok vok2 : Bool) :
    (st.docRows.filter (rowMatch filename threadId) = [] →
      ragDeleteDocumentsByFilename st none vok filename threadId =
        ({ success := true, deletedCount := 0,
           message := "No documents found for filename: " ++ filename ++
             " in thread: " ++ threadId }, st)) ∧
    (ragDeleteDocumentsByFilename
        (ragDeleteDocumentsByFilename st none vok filename threadId).2
        none vok2 filename threadId).1 =
      { success := true, deletedCount := 0,
        message := "No documents found for filename: " ++ filename ++
          " in thread: " ++ threadId } := by
  constructor
  · intro hnone
    exact ragDelete_no_match st vok filename threadId hnone
  · by_cases h0 : st.docRows.filter (rowMatch filename threadId) = []
    · rw [ragDelete_no_match st vok filename threadId h0]
      rw [ragDelete_no_match st vok2 filename threadId h0]
    · rw [ragDelete_match st vok filename threadId h0]
      have hempty : (st.docRows.filter
          (fun r => !(rowMatch filename threadId r))).filter
            (rowMatch filename threadId) = [] := by
        rw [List.filter_filter]
        simp
      rw [ragDelete_no_match _ vok2 filename threadId hempty]

/-- A one-file store used to evaluate the delete paths at a concrete
input: one node and one `READY` row for `a.txt` in thread `t1`. -/
def sampleStore : RagStore :=
  { points := [{ content := "alpha", meta := [("threadId", "t1"), ("fileName", "a.txt")] }]
    docRows := [{ id := "d1", threadId := "t1", filename := "a.txt", originalName := "a.txt",
                  size := 5, mimeType := "text/plain", status := "READY" }] }

/-- C6 counterexample: at a concrete store holding one matching row and one
matching vector record, the result of a delete whose vector-store step fails
is byte-for-byte the result of a fully successful delete (`success: true`
and the same success message), while the vectors were in fact left behind;
the failure is not reported in the returned result, so the caller cannot
distinguish the two outcomes. -/
theorem delete_vector_failure_indistinguishable :
    (ragDeleteDocumentsByFilename sampleStore none false "a.txt" "t1").1 =
      (ragDeleteDocumentsByFilename sampleStore none true "a.txt" "t1").1 ∧
    (ragDeleteDocumentsByFilename sampleStore none false "a.txt" "t1").1.success = true ∧
    (ragDeleteDocumentsByFilename sampleStore none false "a.txt" "t1").2.points =
      sampleStore.points ∧
    (ragDeleteDocumentsByFilename sampleStore none true "a.txt" "t1").2.points = [] ∧
    (ragDeleteDocumentsByFilename sampleStore none false "a.txt" "t1").2.docRows = [] := by
  decide

/-- C6 amended: when the vector-store deletion step inside
`deleteDocumentsByFilename` fails, the metadata-row deletion still proceeds
(continue-on-error) — but the failure is only logged, not reported: the
returned result equals that of a fully successful deletion, and the
untouched vector records are simply orphaned. -/
theorem delete_vector_failure_only_logged (st : RagStore) (filename threadId : String) :
    (ragDeleteDocumentsByFilename st none false filename threadId).1 =
      (ragDeleteDocumentsByFilename st none true filename threadId).1 ∧
    (ragDeleteDocumentsByFilename st none false filename threadId).2.docRows =
      (ragDeleteDocumentsByFilename st none true filename threadId).2.docRows ∧
    (ragDeleteDocumentsByFilename st none false filename threadId).2.points = st.points ∧
    (ragDeleteDocumentsByFilename st none false filename threadId).2.docRows =
      st.docRows.filter (fun r => !(rowMatch filename threadId r)) := by
  by_cases h0 : st.docRows.filter (rowMatch filename threadId) = []
  · rw [ragDelete_no_match st false filename threadId h0,
      ragDelete_no_match st true filename threadId h0]
    refine ⟨rfl, rfl, rfl, ?_⟩
    have hall := List.filter_eq_nil_iff.mp h0
    exact (List.filter_eq_self.mpr (fun r hr => by simp [hall r hr])).symm
  · rw [ragDelete_match st false filename threadId h0,
      ragDelete_match st true filename threadId h0]
    exact ⟨rfl, rfl, rfl, rfl⟩

/-- C7: when the similarity search yields no node at or above the score
threshold, retrieval completes successfully with an empty context text and
an empty source list — the empty result set is not turned into an error. -/
theorem empty_retrieval_not_an_error (st : RagStore) (sim : VecNode → Int) (thr : Int)
    (threadId : String)
    (hempty : (st.points.filter (threadFilter threadId)).filter
      (fun p => thr ≤ sim p) = []) :
    retrieveContext st sim thr none threadId =
      Outcome.ret { contextText := "", sources := [] } := by
  have hnodes : retrieveNodes st.points sim thr threadId = [] := by
    rw [retrieveNodes, engineSelect, hempty, List.mergeSort_nil]
    rfl
  rw [retrieveContext, hnodes]
  rfl

/-- C7 witness: querying thread `t1` of a store whose only content belongs
to thread `t2` finds no match and still returns the empty context. -/
theorem empty_retrieval_not_an_error_witness :
    retrieveContext
      { points := [{ content := "beta", meta := [("threadId", "t2")] }], docRows := [] }
      (fun _ => 1) 0 none "t1" =
      Outcome.ret { contextText := "", sources := [] } :=
  empty_retrieval_not_an_error
    { points := [{ content := "beta", meta := [("threadId", "t2")] }], docRows := [] }
    (fun _ => 1) 0 "t1" (by decide)

/-- C8 counterexample: at the concrete message list of a user question with
an empty retrieved context, `prepareMessagesWithContext` returns the
messages unchanged — no system prompt at all is sent, so no
insufficient-context instruction is carried — and the system prompt it does
build for a non-empty context explicitly permits answering from general
knowledge instead of forbidding fabrication. -/
theorem empty_context_adds_no_system_prompt :
    prepareMessagesWithContext [{ role := "user", content := "What does the document say?" }]
        (some []) =
      [{ role := "user", content := "What does the document say?" }] ∧
    prepareMessagesWithContext [{ role := "user", content := "What does the document say?" }]
        none =
      [{ role := "user", content := "What does the document say?" }] ∧
    (∃ a b, knowledgeBasePrompt "CTX" =
      a ++ "you can still provide a helpful response based on your general knowledge." ++ b) := by
  refine ⟨rfl, rfl,
    "You are a helpful assistant with access to a knowledge base. Use the following context to help answer questions when relevant:\n\nCTX\n\nIf the context doesn't contain relevant information for the user's question, ",
    "", ?_⟩
  rw [String.append_empty]
  rfl

/-- C8 amended: the alternate RAG manager's generation path always sends a
system prompt that embeds the retrieved context verbatim after a fixed
prefix and instructs the model to say so clearly when the context lacks
relevant information — even when the context text is empty; the chat
service's `prepareMessagesWithContext`, by contrast, adds its context system
message only when the context list is non-empty, and that message permits
answering from general knowledge rather than forbidding fabrication. -/
theorem generation_prompt_shape (ctx query : String) (messages : List ChatMsg) :
    (ragMessages ctx query).head? =
      some { role := "system", content := ragSystemPrompt ctx } ∧
    (∃ a, ∀ c : String, ragSystemPrompt c = a ++ c) ∧
    (∃ a b, ragSystemPrompt ctx =
      a ++ "If the context doesn't contain relevant information, say so clearly." ++ b) ∧
    prepareMessagesWithContext messages none = messages ∧
    prepareMessagesWithContext messages (some []) = messages ∧
    (∃ a b, knowledgeBasePrompt ctx =
      a ++ "you can still provide a helpful response based on your general knowledge." ++ b) := by
  refine ⟨rfl, ⟨_, fun _ => rfl⟩, ?_, rfl, rfl, ?_⟩
  · refine ⟨"You are a helpful assistant that answers questions based on the provided context. Use the context below to answer the user's question. ",
      "\n\nContext:\n" ++ ctx, ?_⟩
    rw [← String.append_assoc]
    rfl
  · refine ⟨"You are a helpful assistant with access to a knowledge base. Use the following context to help answer questions when relevant:\n\n" ++
      ctx ++ "\n\nIf the context doesn't contain relevant information for the user's question, ",
      "", ?_⟩
    rw [String.append_empty, String.append_assoc, String.append_assoc]
    rfl

/-- C9 counterexample: at a concrete failing search, `retrieveContext` does
not return a discriminated failure result — it propagates a wrapped raised
exception across the module boundary. -/
theorem retrieval_rethrows_exception :
    retrieveContext { points := [], docRows := [] } (fun _ => 0) 0
        (some "Error: connect ECONNREFUSED") "t1" =
      Outcome.thrown "Context retrieval failed: Error: connect ECONNREFUSED" :=
  rfl

/-- C9 amended: indexing and filename deletion return discriminated
success/failure results to their callers when an underlying call fails,
but retrieval, generation and the vector-store similarity search catch the
underlying error and re-throw it wrapped, propagating an exception across
the module boundary. -/
theorem stage_error_propagation (st : RagStore) (loadRes : Except String (List RawDoc))
    (threadId : String) (fileMetadata : List FileMeta) (now : String) (seed : Nat)
    (upsertOk vok : Bool) (sim : VecNode → Int) (thr : Int) (e filename : String)
    (llm : List VecNode → String) (store : List QPoint) (qsim : QPoint → Int)
    (queryLimit : Nat) (scoreThreshold : Int) (filt : Payload) :
    (indexDocumentsFromDirectory st loadRes threadId fileMetadata now seed
      false).1.success = false ∧
    (indexDocumentsFromDirectory st (Except.error e) threadId fileMetadata now seed
      upsertOk).1 =
      { success := false, documentsIndexed := 0, chunksCreated := 0, error := some e } ∧
    (ragDeleteDocumentsByFilename st (some e) vok filename threadId).1 =
      { success := false, deletedCount := 0,
        message := "Failed to delete documents: " ++ e } ∧
    retrieveContext st sim thr (some e) threadId =
      Outcome.thrown ("Context retrieval failed: " ++ e) ∧
    generateResponse st sim thr (some e) llm threadId =
      Outcome.thrown ("RAG generation failed: " ++ e) ∧
    vsSearchSimilar store qsim (some e) queryLimit scoreThreshold filt =
      Outcome.thrown ("Vector search failed: " ++ e) :=
  ⟨(indexDocuments_upsert_fail st loadRes threadId fileMetadata now seed).1,
    rfl, rfl, rfl, rfl, rfl⟩

/-- Filtering out the elements whose image under an injective-on-the-list
key function appears among the keys of the first `k` elements leaves exactly
the elements after position `k`. -/
theorem filter_not_mem_map_take {α β : Type} [DecidableEq β] (f : α → β) (t d : List α)
    (hnd : ((t ++ d).map f).Nodup) :
    (t ++ d).filter (fun a => !(decide (f a ∈ t.map f))) = d := by
  rw [List.filter_append]
  have h1 : t.filter (fun a => !(decide (f a ∈ t.map f))) = [] := by
    rw [List.filter_eq_nil_iff]
    intro a ha
    simp [List.mem_map_of_mem f ha]
  have h2 : d.filter (fun a => !(decide (f a ∈ t.map f))) = d := by
    rw [List.filter_eq_self]
    intro a ha
    rw [List.map_append] at hnd
    have hdisj := (List.nodup_append.mp hnd).2.2
    have hnot : f a ∉ t.map f :=
      fun hmem => hdisj hmem (List.mem_map_of_mem f ha)
    simp [hnot]
  rw [h1, h2, List.nil_append]

/-- C10: one call of the vector-store adapter's `deleteDocumentsByFilename`
deletes exactly the at most 1000 points one scroll page returns: for a
filename with more than 1000 stored chunks the call reports success with
count 1000 and the chunks beyond the first scroll page survive in the store;
and no successful call ever reports more than 1000 deletions. -/
theorem vsDelete_scroll_cap (store : List QPoint) (filename : String)
    (hnodup : (store.map (fun p => p.id)).Nodup)
    (hmany : scrollLimit < (store.filter (vsFilenameMatch filename)).length) :
    (∃ out, vsDeleteDocumentsByFilename store none filename =
        Outcome.ret (scrollLimit, out) ∧
      out.filter (vsFilenameMatch filename) =
        (store.filter (vsFilenameMatch filename)).drop scrollLimit ∧
      out.filter (vsFilenameMatch filename) ≠ []) ∧
    (∀ (st2 : List QPoint) (fn : String) (n : Nat) (out2 : List QPoint),
      vsDeleteDocumentsByFilename st2 none fn = Outcome.ret (n, out2) →
        n ≤ scrollLimit) := by
  constructor
  · have hlen : ((store.filter (vsFilenameMatch filename)).take scrollLimit).length =
        scrollLimit := by
      rw [List.length_take]
      exact min_eq_left (le_of_lt hmany)
    have hne : ¬ ((store.filter (vsFilenameMatch filename)).take scrollLimit).length = 0 := by
      rw [hlen]
      decide
    have heq : (store.filter (fun p => !(decide (p.id ∈
        ((store.filter (vsFilenameMatch filename)).take scrollLimit).map
          (fun q => q.id))))).filter (vsFilenameMatch filename) =
        (store.filter (vsFilenameMatch filename)).drop scrollLimit := by
      rw [List.filter_filter]
      have hswap : store.filter (fun a =>
          vsFilenameMatch filename a && !(decide (a.id ∈
            ((store.filter (vsFilenameMatch filename)).take scrollLimit).map
              (fun q => q.id)))) =
          (store.filter (vsFilenameMatch filename)).filter (fun a => !(decide (a.id ∈
            ((store.filter (vsFilenameMatch filename)).take scrollLimit).map
              (fun q => q.id)))) := by
        rw [List.filter_filter]
        exact List.filter_congr (fun a _ => Bool.and_comm _ _)
      rw [hswap]
      have hnd : (((store.filter (vsFilenameMatch filename)).take scrollLimit ++
          (store.filter (vsFilenameMatch filename)).drop scrollLimit).map
            (fun p => p.id)).Nodup := by
        rw [List.take_append_drop]
        exact List.Nodup.sublist
          (List.Sublist.map _ (List.filter_sublist store)) hnodup
      have hkey := filter_not_mem_map_take (fun p => p.id)
        ((store.filter (vsFilenameMatch filename)).take scrollLimit)
        ((store.filter (vsFilenameMatch filename)).drop scrollLimit) hnd
      rw [List.take_append_drop] at hkey
      exact hkey
    refine ⟨store.filter (fun p => !(decide (p.id ∈
      ((store.filter (vsFilenameMatch filename)).take scrollLimit).map (fun q => q.id)))),
      ?_, heq, ?_⟩
    · simp only [vsDeleteDocumentsByFilename]
      rw [if_neg hne, List.length_map, hlen]
    · rw [heq]
      have hpos : 0 < ((store.filter (vsFilenameMatch filename)).drop scrollLimit).length := by
        rw [List.length_drop]
        omega
      exact List.length_pos.mp hpos
  · intro st2 fn n out2 h
    simp only [vsDeleteDocumentsByFilename] at h
    by_cases he : ((st2.filter (vsFilenameMatch fn)).take scrollLimit).length = 0
    · rw [if_pos he] at h
      have hn : n = 0 := by
        cases h
        rfl
      rw [hn]
      exact Nat.zero_le _
    · rw [if_neg he] at h
      have hn : n = ((st2.filter (vsFilenameMatch fn)).take scrollLimit).length := by
        cases h
        rw [List.length_map]
      rw [hn]
      exact List.length_take_le _ _

/-- A store point of the C10 witness: the chunk ids are pairwise distinct
strings (of pairwise distinct lengths) and every chunk belongs to the
filename `big.txt`. -/
def bigPoint (i : Nat) : QPoint :=
  { id := String.mk (List.replicate i 'a')
    vector := []
    originalId := ""
    content := ""
    meta := [("filename", "big.txt")] }

/-- A store holding 1001 chunks of the filename `big.txt`. -/
def bigStore : List QPoint :=
  (List.range (scrollLimit + 1)).map bigPoint

theorem bigStore_ids_nodup : (bigStore.map (fun p => p.id)).Nodup := by
  have hmap : bigStore.map (fun p => p.id) =
      (List.range (scrollLimit + 1)).map (fun i => String.mk (List.replicate i 'a')) := by
    rw [bigStore, List.map_map]
    rfl
  rw [hmap]
  apply List.Nodup.of_map String.length
  have hlen : ((List.range (scrollLimit + 1)).map
      (fun i => String.mk (List.replicate i 'a'))).map String.length =
      List.range (scrollLimit + 1) := by
    rw [List.map_map]
    have hcomp : (String.length ∘ fun i => String.mk (List.replicate i 'a')) = id := by
      funext i
      simp [String.length]
    rw [hcomp, List.map_id]
  rw [hlen]
  exact List.nodup_range _

theorem bigStore_many :
    scrollLimit < (bigStore.filter (vsFilenameMatch "big.txt")).length := by
  have hall : bigStore.filter (vsFilenameMatch "big.txt") = bigStore := by
    rw [List.filter_eq_self]
    intro p hp
    obtain ⟨i, _, rfl⟩ := List.mem_map.mp hp
    rfl
  rw [hall, bigStore, List.length_map, List.length_range]
  omega

/-- C10 witness: at a concrete store of 1001 chunks of one filename, the
call deletes exactly 1000, the 1001st chunk survives, and every call's
reported count is at most 1000. -/
theorem vsDelete_scroll_cap_witness :
    (∃ out, vsDeleteDocumentsByFilename bigStore none "big.txt" =
        Outcome.ret (scrollLimit, out) ∧
      out.filter (vsFilenameMatch "big.txt") =
        (bigStore.filter (vsFilenameMatch "big.txt")).drop scrollLimit ∧
      out.filter (vsFilenameMatch "big.txt") ≠ []) ∧
    (∀ (st2 : List QPoint) (fn : String) (n : Nat) (out2 : List QPoint),
      vsDeleteDocumentsByFilename st2 none fn = Outcome.ret (n, out2) →
        n ≤ scrollLimit) :=
  vsDelete_scroll_cap bigStore "big.txt" bigStore_ids_nodup bigStore_many

end ChatKB
